import Mathlib

/-!
Shallow embedding of the terminalcp state-inference engine.

Source files embedded here:
* `src/terminalcp/claude_status.py` — `detect_claude_state`, `detect_claude_mode`
  and their helper functions and vocabulary constants;
* `src/terminalcp/terminal_detector.py` — `TerminalDetector.detect_interactive`
  and its pattern checkers and `_extract_choices`.

Python strings are modelled as `List Char` at the character level, with the
public entry points taking Lean `String`s (via `String.data`).  Python regexes
are compiled by hand into deterministic character-list matchers; in every
pattern appearing in the source, greedy matching with backtracking coincides
with maximal-munch because each quantified class is disjoint from the literal
that follows it (checked case by case against CPython `re`), except for the
`\s+(.+)` tails, where the one backtracking step (all-whitespace remainder)
is modelled explicitly in `wsThenGroup`.

Modelling conventions:
* `\w` (Python word character) is modelled on its ASCII fragment
  (letters, digits, underscore) — every pattern literal and every input a
  claim mentions is ASCII;
* `str.lower()` is modelled as ASCII lowering (the substrings searched for
  case-insensitively, such as "plan" and "accept", are ASCII);
* `InteractionMatch.matched_text` is not modelled: no claim refers to it.
-/

namespace Terminalcp

/-- Whitespace predicate of Python `str` regexes and `str.strip()`:
ASCII whitespace plus the Unicode space characters recognised by CPython. -/
def pyIsSpace (c : Char) : Bool :=
  c = ' ' || c = '\t' || c = '\n' || c = '\r' || c = '\x0b' || c = '\x0c' ||
  (0x1c ≤ c.toNat && c.toNat ≤ 0x1f) || c.toNat = 0x85 || c.toNat = 0xa0 ||
  c.toNat = 0x1680 || (0x2000 ≤ c.toNat && c.toNat ≤ 0x200a) ||
  c.toNat = 0x2028 || c.toNat = 0x2029 || c.toNat = 0x202f ||
  c.toNat = 0x205f || c.toNat = 0x3000

/-- Python word-character class `\w`, restricted to ASCII. -/
def pyIsWordChar (c : Char) : Bool :=
  c.isAlphanum || c = '_'

/-- Python `str.strip()` on a character list. -/
def pyStripL (s : List Char) : List Char :=
  ((s.dropWhile pyIsSpace).reverse.dropWhile pyIsSpace).reverse

/-- Python `str.lower()` on a character list (ASCII fragment). -/
def pyLower (s : List Char) : List Char :=
  s.map Char.toLower

/-- Line access `lines[j]` of the Python code (out of range only arises in
bounds-checked contexts; the default is never consulted by the claims). -/
def lineAt (lines : List (List Char)) (j : Nat) : List Char :=
  lines.getD j []

/-- Helper for `splitLines`: accumulates the current line (reversed). -/
def splitLinesAux : List Char → List Char → List (List Char)
  | [], acc => [acc.reverse]
  | c :: cs, acc =>
    if c = '\n' then acc.reverse :: splitLinesAux cs []
    else splitLinesAux cs (c :: acc)

/-- Python `s.split("\n")`. -/
def splitLines (s : List Char) : List (List Char) :=
  splitLinesAux s []

/-- Decides whether `p` is a prefix of `s` (Boolean, character lists). -/
def startsWithL : List Char → List Char → Bool
  | [], _ => true
  | _ :: _, [] => false
  | p :: ps, c :: cs => p = c && startsWithL ps cs

/-- Python substring containment `needle in hay`. -/
def containsSub (needle : List Char) : List Char → Bool
  | [] => startsWithL needle []
  | c :: cs => startsWithL needle (c :: cs) || containsSub needle cs

/-- Decides whether `s` ends with `suffix` (Python `str.endswith`). -/
def endsWithL (suffix s : List Char) : Bool :=
  startsWithL suffix.reverse s.reverse

/-- SPINNER_CHARS from `claude_status.py`. -/
def SPINNER_CHARS : List Char := ['·', '✢', '✳', '✶', '✻', '✽']

/-- Constant _SEPARATOR_CHARS from `claude_status.py`. -/
def SEPARATOR_CHARS : List Char := ['─', '━', '╌', '╍', '═']

/-- COMPLETED_WORDS from `claude_status.py`. -/
def COMPLETED_WORDS : List String :=
  ["Baked", "Brewed", "Churned", "Cogitated",
   "Cooked", "Crunched", "Sautéed", "Worked"]

/-- INTERACTIVE_PROMPTS from `claude_status.py` (order matters). -/
def INTERACTIVE_PROMPTS : List String :=
  ["Should I proceed?",
   "Do you want to proceed?",
   "Would you like to proceed?",
   "Would you like to proceed with this plan?",
   "Proceed with this plan?",
   "Ready to submit your answers?"]

/-- PROCESSING_WORDS from `claude_status.py`. -/
def PROCESSING_WORDS : List String :=
  ["Accomplishing", "Actioning", "Actualizing", "Adding", "Architecting",
   "Baking", "Beaming", "Beboppin'", "Befuddling", "Billowing", "Blanching",
   "Bloviating", "Boogieing", "Boondoggling", "Booping", "Bootstrapping",
   "Brewing", "Burrowing", "Calculating", "Canoodling", "Caramelizing",
   "Cascading", "Catapulting", "Cerebrating", "Channeling", "Channelling",
   "Choreographing", "Churning", "Clauding", "Coalescing", "Cogitating",
   "Combobulating", "Composing", "Computing", "Concocting", "Considering",
   "Contemplating", "Cooking", "Crafting", "Creating", "Crunching",
   "Crystallizing", "Cultivating", "Deciphering", "Deliberating",
   "Determining", "Dilly-dallying", "Discombobulating", "Doing", "Doodling",
   "Drizzling", "Ebbing", "Effecting", "Elucidating", "Embellishing",
   "Enchanting", "Envisioning", "Evaporating", "Fermenting",
   "Fiddle-faddling", "Finagling", "Flambéing", "Flibbertigibbeting",
   "Flowing", "Flummoxing", "Fluttering", "Forging", "Forming", "Frolicking",
   "Frosting", "Gallivanting", "Galloping", "Garnishing", "Generating",
   "Germinating", "Gitifying", "Grooving", "Gusting", "Harmonizing",
   "Hashing", "Hatching", "Herding", "Honking", "Hullaballooing",
   "Hyperspacing", "Ideating", "Imagining", "Improvising", "Incubating",
   "Inferring", "Infusing", "Ionizing", "Jitterbugging", "Julienning",
   "Kneading", "Leavening", "Levitating", "Lollygagging", "Manifesting",
   "Marinating", "Meandering", "Metamorphosing", "Misting", "Moonwalking",
   "Moseying", "Mulling", "Mustering", "Musing", "Nebulizing", "Nesting",
   "Newspapering", "Noodling", "Nucleating", "Orbiting", "Orchestrating",
   "Osmosing", "Perambulating", "Percolating", "Perusing", "Philosophising",
   "Photosynthesizing", "Pollinating", "Pondering", "Pontificating",
   "Pouncing", "Precipitating", "Prestidigitating", "Processing",
   "Proofing", "Propagating", "Puttering", "Puzzling", "Quantumizing",
   "Razzle-dazzling", "Razzmatazzing", "Recombobulating", "Reticulating",
   "Roosting", "Ruminating", "Sautéing", "Scampering", "Schlepping",
   "Scurrying", "Seasoning", "Shenaniganing", "Shimmying", "Simmering",
   "Skedaddling", "Sketching", "Slithering", "Smooshing", "Sock-hopping",
   "Spelunking", "Spinning", "Sprouting", "Stewing", "Sublimating",
   "Swirling", "Swooping", "Symbioting", "Synthesizing", "Tempering",
   "Thinking", "Thundering", "Tinkering", "Tomfoolering", "Topsy-turvying",
   "Transfiguring", "Transmuting", "Twisting", "Undulating", "Unfurling",
   "Unravelling", "Vibing", "Waddling", "Wandering", "Warping",
   "Whatchamacalliting", "Whirlpooling", "Whirring", "Whisking", "Wibbling",
   "Working", "Wrangling", "Writing", "Zesting", "Zigzagging"]

/-- Membership of a character-list word in a vocabulary of strings. -/
def memWords (ws : List String) (w : List Char) : Bool :=
  ws.any (fun v => v.data = w)

/-- Helper _is_separator_line from `claude_status.py`. -/
def isSeparatorLine (stripped : List Char) : Bool :=
  decide (stripped.length ≥ 4) && stripped.all (fun c => SEPARATOR_CHARS.contains c)

/-- Loop body of _nearest_non_empty: `d` is the current distance, `fuel`
counts the remaining loop iterations (`maxDist - d + 1`). -/
def nearestNonEmptyGo (lines : List (List Char)) (idx direction : Int) :
    Nat → Nat → Option Int
  | _, 0 => none
  | d, fuel + 1 =>
    let j : Int := idx + direction * (d : Int)
    if j < 0 || (lines.length : Int) ≤ j then none
    else if pyStripL (lineAt lines j.toNat) ≠ [] then some j
    else nearestNonEmptyGo lines idx direction (d + 1) fuel

/-- Helper _nearest_non_empty from `claude_status.py` (max_dist = 3 at every call
site of the embedded code). -/
def nearestNonEmpty (lines : List (List Char)) (idx direction : Int)
    (maxDist : Nat) : Option Int :=
  nearestNonEmptyGo lines idx direction 1 maxDist

/-- Python `stripped.split("❯", 1)[1]`: everything after the first caret. -/
def afterFirstCaret : List Char → List Char
  | [] => []
  | c :: cs => if c = '❯' then cs else afterFirstCaret cs

/-- Group 2 of _SPINNER_RE (`^\s*([·✢✳✶✻✽])\s+(.*)`) applied with
`re.match` to a single line, or `none` when the regex does not match. -/
def spinnerMatch (line : List Char) : Option (List Char) :=
  match line.dropWhile pyIsSpace with
  | [] => none
  | c :: cs =>
    if SPINNER_CHARS.contains c then
      match cs with
      | [] => none
      | c2 :: _ => if pyIsSpace c2 then some (cs.dropWhile pyIsSpace) else none
    else none

/-- Python `rest.split()[0]` on an already-stripped non-empty `rest`. -/
def firstToken (s : List Char) : List Char :=
  (s.dropWhile pyIsSpace).takeWhile (fun c => !pyIsSpace c)

/-- Step A of the scan: the first INTERACTIVE_PROMPTS entry contained in
the stripped line, in declaration order. -/
def findPrompt (stripped : List Char) : Option String :=
  INTERACTIVE_PROMPTS.find? (fun p => containsSub p.data stripped)

/-- Step B1 of the scan: the caret at index `i` is flanked (nearest
non-blank line within 3 in each direction) by separator lines. -/
def inputtingCond (lines : List (List Char)) (i : Nat) : Bool :=
  (match nearestNonEmpty lines (i : Int) (-1) 3 with
   | some j => isSeparatorLine (pyStripL (lineAt lines j.toNat))
   | none => false) &&
  (match nearestNonEmpty lines (i : Int) 1 3 with
   | some j => isSeparatorLine (pyStripL (lineAt lines j.toNat))
   | none => false)

/-- Loop body of step B2 (`for offset in range(1, 20)`): `offset` is the
current distance above the caret, `fuel` the remaining iterations. -/
def hasQuestionAboveGo (lines : List (List Char)) (i : Nat) :
    Nat → Nat → Bool
  | _, 0 => false
  | offset, fuel + 1 =>
    if (i : Int) - (offset : Int) < 0 then false
    else
      let aboveIdx := i - offset
      let aboveStripped := pyStripL (lineAt lines aboveIdx)
      if aboveStripped = [] then hasQuestionAboveGo lines i (offset + 1) fuel
      else if isSeparatorLine aboveStripped then false
      else if (lineAt lines aboveIdx).contains '?' then true
      else hasQuestionAboveGo lines i (offset + 1) fuel

/-- Step B2 of the scan: search upward from the caret at index `i` for a
line containing `?`, skipping blank lines, stopping at a separator line,
over offsets 1 through 19 (`range(1, 20)`). -/
def hasQuestionAbove (lines : List (List Char)) (i : Nat) : Bool :=
  hasQuestionAboveGo lines i 1 19

/-- Body of one iteration of the bottom-to-top loop of detect_claude_state at
line index `i`; `fallback` stands for "no early return: continue the scan".
Every `continue` of the Python loop body becomes `fallback` here. -/
def scanStep (lines : List (List Char)) (i : Nat)
    (fallback : String × String) : String × String :=
  let line := lineAt lines i
  let stripped := pyStripL line
  if stripped = [] then fallback
  else
    match findPrompt stripped with
    | some p => ("interactive", p)
    | none =>
      if stripped.contains '❯' then
        let after := pyStripL (afterFirstCaret stripped)
        if after ≠ [] then
          if inputtingCond lines i then ("inputting", String.mk after)
          else if hasQuestionAbove lines i then ("interactive", String.mk after)
          else fallback
        else fallback
      else
        match spinnerMatch line with
        | some g2 =>
          let rest := pyStripL g2
          if rest = [] then fallback
          else
            let fw := firstToken rest
            if memWords COMPLETED_WORDS fw then ("completed", String.mk fw)
            else if memWords PROCESSING_WORDS fw then ("processing", String.mk rest)
            else if endsWithL ['…'] rest || endsWithL ['.', '.', '.'] rest then
              ("processing", String.mk rest)
            else ("processing", String.mk rest)
        | none => fallback

/-- Bottom-to-top scan of detect_claude_state: `scanFrom lines (i + 1)`
processes line `i` and recurses on `i`; `scanFrom lines 0` is the fallthrough
`("idle", "")`. -/
def scanFrom (lines : List (List Char)) : Nat → String × String
  | 0 => ("idle", "")
  | i + 1 => scanStep lines i (scanFrom lines i)

/-- detect_claude_state from `claude_status.py`. -/
def detect_claude_state (output : String) : String × String :=
  if output = "" then ("idle", "")
  else
    let lines := splitLines output.data
    scanFrom lines lines.length

/-- Per-line plan-mode test of detect_claude_mode:
`"⏸" in line and "plan" in line.lower()`. -/
def planCond (line : List Char) : Bool :=
  line.contains '⏸' && containsSub "plan".data (pyLower line)

/-- Per-line accept-edits test of detect_claude_mode:
`"⏵⏵" in line and "accept" in line.lower()`. -/
def acceptCond (line : List Char) : Bool :=
  containsSub "⏵⏵".data line && containsSub "accept".data (pyLower line)

/-- Top-to-bottom loop of detect_claude_mode. -/
def modeScan : List (List Char) → String
  | [] => "default"
  | l :: ls =>
    if planCond l then "plan"
    else if acceptCond l then "accept-edits"
    else modeScan ls

/-- detect_claude_mode from `claude_status.py`. -/
def detect_claude_mode (output : String) : String :=
  if output = "" then "default"
  else modeScan (splitLines output.data)

/-- InteractionType from `status_detector.py` (re-exported by
`terminal_detector.py`), in priority order. -/
inductive InteractionType where
  | permission_confirm
  | highlighted_option
  | plan_approval
  | user_question
  | selection_menu
deriving DecidableEq, Repr

/-- InteractionMatch from `status_detector.py`; the `matched_text` field is
not modelled (no claim refers to it). -/
structure InteractionMatch where
  interaction_type : InteractionType
  choices : List String
deriving DecidableEq, Repr

/-- Consumes a case-insensitive literal (given lowercase) from the front of
the text; returns the remainder on success. -/
def munchCI : List Char → List Char → Option (List Char)
  | [], t => some t
  | _ :: _, [] => none
  | p :: ps, c :: cs => if Char.toLower c = p then munchCI ps cs else none

/-- Consumes `\s+` (at least one whitespace character, maximal munch) from
the front of the text. -/
def munchSpaces1 (t : List Char) : Option (List Char) :=
  match t with
  | [] => none
  | c :: cs => if pyIsSpace c then some (cs.dropWhile pyIsSpace) else none

/-- Runs a position predicate at every suffix of the text (`re.search`). -/
def searchAny (p : List Char → Bool) : List Char → Bool
  | [] => p []
  | c :: cs => p (c :: cs) || searchAny p cs

/-- Position matcher for `Allow\s+tool\s+\w+\?` (IGNORECASE). -/
def matchAllowToolAt (t : List Char) : Bool :=
  match munchCI "allow".data t with
  | none => false
  | some r1 =>
    match munchSpaces1 r1 with
    | none => false
    | some r2 =>
      match munchCI "tool".data r2 with
      | none => false
      | some r3 =>
        match munchSpaces1 r3 with
        | none => false
        | some r4 =>
          match r4 with
          | [] => false
          | c :: _ =>
            pyIsWordChar c &&
            (match r4.dropWhile pyIsWordChar with
             | '?' :: _ => true
             | _ => false)

/-- Pattern 1 (permission_confirm): `Allow\s+tool\s+\w+\?`. -/
def matchAllowTool (t : List Char) : Bool :=
  searchAny matchAllowToolAt t

/-- Position matcher for `❯\s+\w+`. -/
def matchCaretWordAt : List Char → Bool
  | '❯' :: rest =>
    (match munchSpaces1 rest with
     | some (c :: _) => pyIsWordChar c
     | _ => false)
  | _ => false

/-- Pattern 2 (highlighted_option): `❯\s+\w+`. -/
def matchCaretWord (t : List Char) : Bool :=
  searchAny matchCaretWordAt t

/-- Tail `.*\?` of a regex: a `?` occurs before the next newline. -/
def dotStarQuestion (t : List Char) : Bool :=
  (t.takeWhile (fun c => c ≠ '\n')).contains '?'

/-- Position matcher for `Proceed(\s+with)?.*\?` (IGNORECASE). -/
def matchProceedAt (t : List Char) : Bool :=
  match munchCI "proceed".data t with
  | none => false
  | some r =>
    dotStarQuestion r ||
    (match munchSpaces1 r with
     | some r2 =>
       (match munchCI "with".data r2 with
        | some r3 => dotStarQuestion r3
        | none => false)
     | none => false)

/-- Pattern 3 (plan_approval): `Proceed(\s+with)?.*\?`. -/
def matchProceed (t : List Char) : Bool :=
  searchAny matchProceedAt t

/-- Consumes a sequence of case-insensitive words separated by `\s+`. -/
def munchWordsCI : List String → List Char → Bool
  | [], _ => true
  | w :: ws, t =>
    match munchCI w.data t with
    | none => false
    | some r =>
      match ws with
      | [] => true
      | _ :: _ =>
        match munchSpaces1 r with
        | none => false
        | some r2 => munchWordsCI ws r2

/-- Position matcher for `(Do\s+you\s+want|Would\s+you\s+like|Should\s+I)`
(IGNORECASE). -/
def matchUserQuestionAt (t : List Char) : Bool :=
  munchWordsCI ["do", "you", "want"] t ||
  munchWordsCI ["would", "you", "like"] t ||
  munchWordsCI ["should", "i"] t

/-- Pattern 4 (user_question). -/
def matchUserQuestion (t : List Char) : Bool :=
  searchAny matchUserQuestionAt t

/-- Line test of _check_selection_menu:
`re.match(r'^\s*[\d\-\*\+][\.\)]*\s+\w+', line)`. -/
def isMenuCheckLine (line : List Char) : Bool :=
  match line.dropWhile pyIsSpace with
  | [] => false
  | c :: rest =>
    (c.isDigit || c = '-' || c = '*' || c = '+') &&
    (match munchSpaces1 (rest.dropWhile (fun d => d = '.' || d = ')')) with
     | some (d :: _) => pyIsWordChar d
     | _ => false)

/-- Number of menu-like lines counted by _check_selection_menu. -/
def selectionMenuCount (t : List Char) : Nat :=
  ((splitLines t).filter isMenuCheckLine).length

/-- Tail `\s+(.+)` of a regex, applied to a newline-free line remainder:
greedy `\s+` takes the maximal whitespace run and `(.+)` the (non-empty)
rest; when the rest is empty, one backtracking step hands the last
whitespace character to `(.+)` provided at least one remains for `\s+`. -/
def wsThenGroup (rest : List Char) : Option (List Char) :=
  let ws := rest.takeWhile pyIsSpace
  let rem := rest.dropWhile pyIsSpace
  match rem with
  | _ :: _ => if ws = [] then none else some rem
  | [] => if 2 ≤ ws.length then some (ws.drop (ws.length - 1)) else none

/-- Group 1 of `re.search(r'❯\s+(.+)', line)`: searches the line for the
first caret whose tail matches. -/
def caretOptionSearch : List Char → Option (List Char)
  | [] => none
  | '❯' :: rest =>
    (match wsThenGroup rest with
     | some g => some g
     | none => caretOptionSearch rest)
  | _ :: rest => caretOptionSearch rest

/-- Tests `re.match(r'^\s{2,}(\w+)', line)`: at least two leading whitespace
characters followed by a word character. -/
def indentWordTest (line : List Char) : Bool :=
  2 ≤ (line.takeWhile pyIsSpace).length &&
  (match line.dropWhile pyIsSpace with
   | c :: _ => pyIsWordChar c
   | [] => false)

/-- Per-line choice extraction of _extract_choices for highlighted_option:
the caret branch takes group 1 of `❯\s+(.+)` stripped; the indented branch
takes group 1 of `^\s{2,}(.+)` stripped when non-empty and not starting
with the caret. -/
def highlightedChoice (line : List Char) : Option String :=
  if line.contains '❯' then
    match caretOptionSearch line with
    | some g => some (String.mk (pyStripL g))
    | none => none
  else
    if indentWordTest line then
      if pyStripL (line.dropWhile pyIsSpace) ≠ [] &&
          (match pyStripL (line.dropWhile pyIsSpace) with
           | '❯' :: _ => false
           | _ => true) then
        some (String.mk (pyStripL (line.dropWhile pyIsSpace)))
      else none
    else none

/-- Group 1 of `re.match(r'^\s*\d+[\.\)]\s+(.+)', line)`. -/
def numberedMatch (line : List Char) : Option (List Char) :=
  let r := line.dropWhile pyIsSpace
  match r.takeWhile Char.isDigit with
  | [] => none
  | _ :: _ =>
    match r.dropWhile Char.isDigit with
    | c :: rest => if c = '.' || c = ')' then wsThenGroup rest else none
    | [] => none

/-- Group 1 of `re.match(r'^\s*[\-\*\+]\s+(.+)', line)`. -/
def bulletedMatch (line : List Char) : Option (List Char) :=
  match line.dropWhile pyIsSpace with
  | c :: rest =>
    if c = '-' || c = '*' || c = '+' then wsThenGroup rest else none
  | [] => none

/-- Per-line choice extraction of _extract_choices for selection_menu. -/
def selectionChoice (line : List Char) : Option String :=
  match numberedMatch line with
  | some g => some (String.mk (pyStripL g))
  | none =>
    match bulletedMatch line with
    | some g => some (String.mk (pyStripL g))
    | none => none

/-- Case-insensitive word search with `\b` boundaries on both sides
(`re.search(r'\bW\b', text, re.IGNORECASE)`); `w` is given lowercase. -/
def hasWordCIGo (w : List Char) : Option Char → List Char → Bool
  | _, [] => false
  | prev, c :: cs =>
    ((match prev with
      | none => true
      | some p => !pyIsWordChar p) &&
     (match munchCI w (c :: cs) with
      | some [] => true
      | some (d :: _) => !pyIsWordChar d
      | none => false)) ||
    hasWordCIGo w (some c) cs

/-- Whole-text case-insensitive word search (word given lowercase). -/
def hasWordCI (w : String) (t : List Char) : Bool :=
  hasWordCIGo w.data none t

/-- Branch of _extract_choices for permission_confirm. -/
def extractPermission (t : List Char) : List String :=
  let cs := (if hasWordCI "yes" t then ["Yes"] else []) ++
            (if hasWordCI "no" t then ["No"] else [])
  if cs = [] then ["Yes", "No"] else cs

/-- Branch of _extract_choices for plan_approval. -/
def extractPlan (t : List Char) : List String :=
  let cs := (if hasWordCI "yes" t then ["Yes"] else []) ++
            (if hasWordCI "no" t then ["No"] else []) ++
            (if hasWordCI "proceed" t then ["Proceed"] else []) ++
            (if hasWordCI "cancel" t then ["Cancel"] else [])
  if cs = [] then ["Yes", "No"] else cs

/-- Branch of _extract_choices for user_question. -/
def extractQuestion (t : List Char) : List String :=
  let cs := (if hasWordCI "yes" t then ["Yes"] else []) ++
            (if hasWordCI "no" t then ["No"] else [])
  if cs = [] then ["Yes", "No"] else cs

/-- Branch of _extract_choices for highlighted_option. -/
def extractHighlighted (t : List Char) : List String :=
  (splitLines t).filterMap highlightedChoice

/-- Branch of _extract_choices for selection_menu. -/
def extractSelection (t : List Char) : List String :=
  (splitLines t).filterMap selectionChoice

/-- Dispatcher _extract_choices from `terminal_detector.py`. -/
def extractChoices (t : List Char) : InteractionType → List String
  | .permission_confirm => extractPermission t
  | .highlighted_option => extractHighlighted t
  | .plan_approval => extractPlan t
  | .user_question => extractQuestion t
  | .selection_menu => extractSelection t

/-- Python `'\n'.join(text_lines)`. -/
def joinLines : List String → List Char
  | [] => []
  | [l] => l.data
  | l :: l2 :: rest => l.data ++ '\n' :: joinLines (l2 :: rest)

/-- TerminalDetector.detect_interactive from `terminal_detector.py`:
the five pattern checks in priority order, first match wins. -/
def detect_interactive (textLines : List String) : Option InteractionMatch :=
  let t := joinLines textLines
  if matchAllowTool t then
    some ⟨.permission_confirm, extractChoices t .permission_confirm⟩
  else if matchCaretWord t then
    some ⟨.highlighted_option, extractChoices t .highlighted_option⟩
  else if matchProceed t then
    some ⟨.plan_approval, extractChoices t .plan_approval⟩
  else if matchUserQuestion t then
    some ⟨.user_question, extractChoices t .user_question⟩
  else if 2 ≤ selectionMenuCount t then
    some ⟨.selection_menu, extractChoices t .selection_menu⟩
  else none

set_option maxRecDepth 100000

set_option maxHeartbeats 2000000

/-! ### Helper lemmas about the scan primitives -/

lemma scanFrom_succ (lines : List (List Char)) (i : Nat) :
    scanFrom lines (i + 1) = scanStep lines i (scanFrom lines i) := rfl

lemma contains_iff_mem {c : Char} {l : List Char} :
    l.contains c = true ↔ c ∈ l := by
  simp

lemma ne_nil_of_contains {c : Char} {l : List Char}
    (h : l.contains c = true) : l ≠ [] := by
  intro he; subst he; simp at h

lemma mem_dropWhile_of_mem {p : Char → Bool} {c : Char} {l : List Char}
    (hc : p c = false) (h : c ∈ l) : c ∈ l.dropWhile p := by
  induction l with
  | nil => simp at h
  | cons a l ih =>
    rcases List.mem_cons.mp h with rfl | h2
    · rw [List.dropWhile_cons, hc]
      simp
    · rw [List.dropWhile_cons]
      by_cases hpa : p a
      · simpa [hpa] using ih h2
      · simp [hpa]
        exact Or.inr h2

lemma mem_pyStripL {c : Char} {l : List Char}
    (hc : pyIsSpace c = false) (h : c ∈ l) : c ∈ pyStripL l := by
  unfold pyStripL
  exact List.mem_reverse.mpr
    (mem_dropWhile_of_mem hc (List.mem_reverse.mpr (mem_dropWhile_of_mem hc h)))

lemma sep_ne_nil {s : List Char} (h : isSeparatorLine s = true) : s ≠ [] := by
  intro he; subst he; simp [isSeparatorLine] at h

lemma sep_no_question {s : List Char} (h : '?' ∈ s) :
    isSeparatorLine s = false := by
  unfold isSeparatorLine
  cases hall : s.all (fun c => SEPARATOR_CHARS.contains c) with
  | false => simp [hall]
  | true =>
    have h2 := List.all_eq_true.mp hall '?' h
    exact absurd h2 (by decide)

/-- Search step B2 misses every question: a separator line sits at distance
`d` above the caret and no `?` occurs strictly below it. -/
lemma hasQuestionAboveGo_false {lines : List (List Char)} {i d : Nat}
    (hsep : isSeparatorLine (pyStripL (lineAt lines (i - d))) = true)
    (hq : ∀ e, e < d → 1 ≤ e → ((lineAt lines (i - e)).contains '?') = false) :
    ∀ fuel offset, 1 ≤ offset → offset ≤ d →
      hasQuestionAboveGo lines i offset fuel = false := by
  intro fuel
  induction fuel with
  | zero => intro offset _ _; rfl
  | succ fuel ih =>
    intro offset h1 hod
    unfold hasQuestionAboveGo
    by_cases hneg : (i : Int) - (offset : Int) < 0
    · simp [hneg]
    · rcases eq_or_lt_of_le hod with rfl | hlt
      · have hne := sep_ne_nil hsep
        simp [hneg, hne, hsep]
      · by_cases hblank : pyStripL (lineAt lines (i - offset)) = []
        · simp only [hneg, if_false, hblank, if_true]
          exact ih (offset + 1) (by omega) (by omega)
        · by_cases hsepo : isSeparatorLine (pyStripL (lineAt lines (i - offset))) = true
          · simp [hneg, hblank, hsepo]
          · have hq0 := hq offset hlt h1
            simp only [hneg, if_false, hblank, if_true, hsepo, hq0,
              Bool.false_eq_true]
            exact ih (offset + 1) (by omega) (by omega)

/-- Search step B2 finds a question: a `?` line at distance `d` above the
caret with no separator line strictly below it. -/
lemma hasQuestionAboveGo_true {lines : List (List Char)} {i d : Nat}
    (hdi : d ≤ i)
    (hqd : ((lineAt lines (i - d)).contains '?') = true)
    (hnsep : ∀ e, e < d → 1 ≤ e →
      isSeparatorLine (pyStripL (lineAt lines (i - e))) = false) :
    ∀ fuel offset, 1 ≤ offset → offset ≤ d → d < offset + fuel →
      hasQuestionAboveGo lines i offset fuel = true := by
  intro fuel
  induction fuel with
  | zero => intro offset h1 hod hdf; omega
  | succ fuel ih =>
    intro offset h1 hod hdf
    unfold hasQuestionAboveGo
    have hoi : offset ≤ i := le_trans hod hdi
    have hneg : ¬ ((i : Int) - (offset : Int) < 0) := by
      rw [not_lt, sub_nonneg]
      exact_mod_cast hoi
    rcases eq_or_lt_of_le hod with rfl | hlt
    · have hmem : '?' ∈ pyStripL (lineAt lines (i - offset)) :=
        mem_pyStripL (by decide) (contains_iff_mem.mp hqd)
      have hne : pyStripL (lineAt lines (i - offset)) ≠ [] :=
        List.ne_nil_of_mem hmem
      have hnsq := sep_no_question hmem
      simp [hneg, hne, hnsq, hqd]
      exact Or.inl (contains_iff_mem.mp hqd)
    · by_cases hblank : pyStripL (lineAt lines (i - offset)) = []
      · simp only [hneg, if_false, hblank, if_true]
        exact ih (offset + 1) (by omega) (by omega) (by omega)
      · have hns := hnsep offset hlt h1
        by_cases hq : ((lineAt lines (i - offset)).contains '?') = true
        · simp [hneg, hblank, hns, hq]
          exact Or.inl (contains_iff_mem.mp hq)
        · simp only [hneg, if_false, hblank, if_true, hns, Bool.false_eq_true,
            hq]
          exact ih (offset + 1) (by omega) (by omega) (by omega)

/-! ### Per-line disposition lemmas for the scan body -/

lemma scanStep_caret_inputting {lines : List (List Char)} {i : Nat}
    (fb : String × String)
    (hnp : findPrompt (pyStripL (lineAt lines i)) = none)
    (hc : (pyStripL (lineAt lines i)).contains '❯' = true)
    (hafter : pyStripL (afterFirstCaret (pyStripL (lineAt lines i))) ≠ [])
    (hin : inputtingCond lines i = true) :
    scanStep lines i fb =
      ("inputting", String.mk (pyStripL (afterFirstCaret (pyStripL (lineAt lines i))))) := by
  have hne : pyStripL (lineAt lines i) ≠ [] := ne_nil_of_contains hc
  have hc2 : '❯' ∈ pyStripL (lineAt lines i) := contains_iff_mem.mp hc
  simp [scanStep, hne, hnp, hc2, hafter, hin]

lemma scanStep_caret_question {lines : List (List Char)} {i : Nat}
    (fb : String × String)
    (hnp : findPrompt (pyStripL (lineAt lines i)) = none)
    (hc : (pyStripL (lineAt lines i)).contains '❯' = true)
    (hafter : pyStripL (afterFirstCaret (pyStripL (lineAt lines i))) ≠ [])
    (hin : inputtingCond lines i = false)
    (hq : hasQuestionAbove lines i = true) :
    scanStep lines i fb =
      ("interactive", String.mk (pyStripL (afterFirstCaret (pyStripL (lineAt lines i))))) := by
  have hne : pyStripL (lineAt lines i) ≠ [] := ne_nil_of_contains hc
  have hc2 : '❯' ∈ pyStripL (lineAt lines i) := contains_iff_mem.mp hc
  simp [scanStep, hne, hnp, hc2, hafter, hin, hq]

lemma scanStep_caret_skip {lines : List (List Char)} {i : Nat}
    (fb : String × String)
    (hnp : findPrompt (pyStripL (lineAt lines i)) = none)
    (hc : (pyStripL (lineAt lines i)).contains '❯' = true)
    (hin : inputtingCond lines i = false)
    (hq : hasQuestionAbove lines i = false) :
    scanStep lines i fb = fb := by
  have hne : pyStripL (lineAt lines i) ≠ [] := ne_nil_of_contains hc
  have hc2 : '❯' ∈ pyStripL (lineAt lines i) := contains_iff_mem.mp hc
  by_cases hafter : pyStripL (afterFirstCaret (pyStripL (lineAt lines i))) = []
  · simp [scanStep, hne, hnp, hc2, hafter]
  · simp [scanStep, hne, hnp, hc2, hafter, hin, hq]

lemma scanStep_caret_empty {lines : List (List Char)} {i : Nat}
    (fb : String × String)
    (hnp : findPrompt (pyStripL (lineAt lines i)) = none)
    (hc : (pyStripL (lineAt lines i)).contains '❯' = true)
    (hafter : pyStripL (afterFirstCaret (pyStripL (lineAt lines i))) = []) :
    scanStep lines i fb = fb := by
  have hne : pyStripL (lineAt lines i) ≠ [] := ne_nil_of_contains hc
  have hc2 : '❯' ∈ pyStripL (lineAt lines i) := contains_iff_mem.mp hc
  simp [scanStep, hne, hnp, hc2, hafter]

/-! ### Claim theorems -/

/-- C1: when the bottom-up scan reaches a caret line with non-empty trailing
text, a `?` lying strictly above a divider line (the divider between the `?`
and the caret) does not make the question search succeed, so the caret line
does not produce an `interactive` verdict and the scan continues past it; in
particular the spec example classifies as `("idle", "")`. -/
theorem divider_bounded_question_search :
    detect_claude_state "Is this correct?\n────────\nctx\n❯ ls -la" = ("idle", "") ∧
    ∀ (lines : List (List Char)) (i d : Nat),
      1 ≤ d →
      isSeparatorLine (pyStripL (lineAt lines (i - d))) = true →
      (∀ e, e < d → 1 ≤ e → ((lineAt lines (i - e)).contains '?') = false) →
      findPrompt (pyStripL (lineAt lines i)) = none →
      (pyStripL (lineAt lines i)).contains '❯' = true →
      pyStripL (afterFirstCaret (pyStripL (lineAt lines i))) ≠ [] →
      inputtingCond lines i = false →
      hasQuestionAbove lines i = false ∧
        scanFrom lines (i + 1) = scanFrom lines i := by
  constructor
  · decide
  · intro lines i d hd1 hsep hq hnp hc hafter hin
    have hqa : hasQuestionAbove lines i = false :=
      hasQuestionAboveGo_false hsep hq 19 1 (by omega) hd1
    exact ⟨hqa, by rw [scanFrom_succ, scanStep_caret_skip _ hnp hc hin hqa]⟩

/-- Witness for C1 at the spec example: caret at index 3, divider at
distance 2, question at distance 3. -/
theorem divider_bounded_question_search_witness :
    hasQuestionAbove (splitLines ("Is this correct?\n────────\nctx\n❯ ls -la".data)) 3 = false ∧
    scanFrom (splitLines ("Is this correct?\n────────\nctx\n❯ ls -la".data)) 4 =
      scanFrom (splitLines ("Is this correct?\n────────\nctx\n❯ ls -la".data)) 3 :=
  divider_bounded_question_search.2 _ 3 2 (by decide) (by decide) (by decide)
    (by decide) (by decide) (by decide) (by decide)

/-- C2: a caret line with non-empty trailing text whose nearest non-blank
neighbours above and below (within 3 lines) are both divider lines classifies
as `inputting` with the typed text as detail, regardless of any `?` above;
in particular the spec example classifies as `("inputting", "hello")`. -/
theorem inputting_precedence :
    detect_claude_state "Q?\n────\n❯ hello\n────" = ("inputting", "hello") ∧
    ∀ (lines : List (List Char)) (i : Nat),
      findPrompt (pyStripL (lineAt lines i)) = none →
      (pyStripL (lineAt lines i)).contains '❯' = true →
      pyStripL (afterFirstCaret (pyStripL (lineAt lines i))) ≠ [] →
      inputtingCond lines i = true →
      scanFrom lines (i + 1) =
        ("inputting", String.mk (pyStripL (afterFirstCaret (pyStripL (lineAt lines i))))) := by
  constructor
  · decide
  · intro lines i hnp hc hafter hin
    rw [scanFrom_succ, scanStep_caret_inputting _ hnp hc hafter hin]

/-- Witness for C2 at the spec example: caret at index 2, flanked by the
dividers at indices 1 and 3. -/
theorem inputting_precedence_witness :
    scanFrom (splitLines ("Q?\n────\n❯ hello\n────".data)) 3 =
      ("inputting", String.mk (pyStripL (afterFirstCaret (pyStripL (lineAt (splitLines ("Q?\n────\n❯ hello\n────".data)) 2))))) :=
  inputting_precedence.2 _ 2 (by decide) (by decide) (by decide) (by decide)

/-- C4: a caret line whose text after the caret is empty never decides the
verdict — the scan continues past it — so an earlier spinner line still
governs; in particular the spec example classifies as
`("processing", "Thinking")`. -/
theorem bare_caret_continuation :
    detect_claude_state "✻ Thinking\n────\n❯\n────\n  mode line" = ("processing", "Thinking") ∧
    ∀ (lines : List (List Char)) (i : Nat),
      findPrompt (pyStripL (lineAt lines i)) = none →
      (pyStripL (lineAt lines i)).contains '❯' = true →
      pyStripL (afterFirstCaret (pyStripL (lineAt lines i))) = [] →
      scanFrom lines (i + 1) = scanFrom lines i := by
  constructor
  · decide
  · intro lines i hnp hc hafter
    rw [scanFrom_succ, scanStep_caret_empty _ hnp hc hafter]

/-- Witness for C4 at the spec example: the bare caret at index 2 defers to
the scan of the two lines above it. -/
theorem bare_caret_continuation_witness :
    scanFrom (splitLines ("✻ Thinking\n────\n❯\n────\n  mode line".data)) 3 =
      scanFrom (splitLines ("✻ Thinking\n────\n❯\n────\n  mode line".data)) 2 :=
  bare_caret_continuation.2 _ 2 (by decide) (by decide) (by decide)

/-- Question loop at the caret line never fires when the caret line is a
spinner-free blank context: a spinnerMatch producing a group means the line
has a non-space character, so its strip is non-empty. -/
lemma spinnerMatch_strip_ne {l g : List Char}
    (h : spinnerMatch l = some g) : pyStripL l ≠ [] := by
  unfold spinnerMatch at h
  cases hd : l.dropWhile pyIsSpace with
  | nil => rw [hd] at h; simp at h
  | cons c cs =>
    rw [hd] at h
    by_cases hs : SPINNER_CHARS.contains c = true
    · have hmem := contains_iff_mem.mp hs
      have hcs : pyIsSpace c = false := by
        simp [SPINNER_CHARS] at hmem
        rcases hmem with rfl | rfl | rfl | rfl | rfl | rfl <;> decide
      have hcd : c ∈ l.dropWhile pyIsSpace := by rw [hd]; exact List.mem_cons_self c cs
      have hcl : c ∈ l := (List.dropWhile_sublist (p := pyIsSpace)).mem hcd
      exact List.ne_nil_of_mem (mem_pyStripL hcs hcl)
    · simp at h
      exact absurd (contains_iff_mem.mpr h.1) hs

lemma scanStep_spinner_unknown {lines : List (List Char)} {i : Nat}
    (fb : String × String) {g2 : List Char}
    (hnp : findPrompt (pyStripL (lineAt lines i)) = none)
    (hnc : (pyStripL (lineAt lines i)).contains '❯' = false)
    (hsp : spinnerMatch (lineAt lines i) = some g2)
    (hrest : pyStripL g2 ≠ [])
    (hf1 : memWords COMPLETED_WORDS (firstToken (pyStripL g2)) = false)
    (hf2 : memWords PROCESSING_WORDS (firstToken (pyStripL g2)) = false) :
    scanStep lines i fb = ("processing", String.mk (pyStripL g2)) := by
  have hne := spinnerMatch_strip_ne hsp
  have hnc2 : '❯' ∉ pyStripL (lineAt lines i) := by
    intro hm
    rw [contains_iff_mem.mpr hm] at hnc
    exact absurd hnc (by simp)
  simp [scanStep, hne, hnp, hnc2, hsp, hrest, hf1, hf2]

/-- C3 counterexample: a `?` exactly 20 lines above the caret, with no
divider in between, is NOT found — the loop `range(1, 20)` stops at offset
19 — so the verdict is `idle`, not `interactive` as the claim requires. -/
theorem question_cap_twenty_counterexample :
    detect_claude_state
      "Q?\nx\nx\nx\nx\nx\nx\nx\nx\nx\nx\nx\nx\nx\nx\nx\nx\nx\nx\nx\n❯ ls" =
      ("idle", "") := by
  decide

/-- C3 (amended): the question window is offsets 1 through 19 above the
caret: when the scan reaches a caret line with non-empty trailing text, the
inputting condition fails, and a `?` sits at distance `d ≤ 19` above the
caret with no divider line strictly in between, the verdict is
`interactive` with the trailing text as detail. -/
theorem question_cap_nineteen :
    ∀ (lines : List (List Char)) (i d : Nat),
      1 ≤ d → d ≤ 19 → d ≤ i →
      ((lineAt lines (i - d)).contains '?') = true →
      (∀ e, e < d → 1 ≤ e →
        isSeparatorLine (pyStripL (lineAt lines (i - e))) = false) →
      findPrompt (pyStripL (lineAt lines i)) = none →
      (pyStripL (lineAt lines i)).contains '❯' = true →
      pyStripL (afterFirstCaret (pyStripL (lineAt lines i))) ≠ [] →
      inputtingCond lines i = false →
      scanFrom lines (i + 1) =
        ("interactive", String.mk (pyStripL (afterFirstCaret (pyStripL (lineAt lines i))))) := by
  intro lines i d hd1 hd19 hdi hqd hnsep hnp hc hafter hin
  have hqa : hasQuestionAbove lines i = true :=
    hasQuestionAboveGo_true hdi hqd hnsep 19 1 (by omega) (by omega) (by omega)
  rw [scanFrom_succ, scanStep_caret_question _ hnp hc hafter hin hqa]

/-- Witness for the amended C3 at the extreme distance 19: the question on
the top line, 19 lines above the caret, is still found. -/
theorem question_cap_nineteen_witness :
    scanFrom
      (splitLines
        ("Q?\nx\nx\nx\nx\nx\nx\nx\nx\nx\nx\nx\nx\nx\nx\nx\nx\nx\nx\n❯ ls".data))
      20 = ("interactive", "ls") :=
  (question_cap_nineteen _ 19 19 (by decide) (by decide) (by decide)
    (by decide) (by decide) (by decide) (by decide) (by decide)
    (by decide)).trans (by decide)

/-- C5: completed words after a spinner give `completed` with the word as
detail, processing words give `processing`, the two vocabularies are
disjoint, and an unrecognized first word after a spinner still gives
`processing` with the stripped spinner text as detail. -/
theorem spinner_word_disposition :
    (∀ w ∈ COMPLETED_WORDS, detect_claude_state ("✻ " ++ w) = ("completed", w)) ∧
    (∀ w ∈ PROCESSING_WORDS, detect_claude_state ("✻ " ++ w) = ("processing", w)) ∧
    (∀ w ∈ COMPLETED_WORDS, w ∉ PROCESSING_WORDS) ∧
    ∀ (lines : List (List Char)) (i : Nat) (g2 : List Char),
      findPrompt (pyStripL (lineAt lines i)) = none →
      (pyStripL (lineAt lines i)).contains '❯' = false →
      spinnerMatch (lineAt lines i) = some g2 →
      pyStripL g2 ≠ [] →
      memWords COMPLETED_WORDS (firstToken (pyStripL g2)) = false →
      memWords PROCESSING_WORDS (firstToken (pyStripL g2)) = false →
      scanFrom lines (i + 1) = ("processing", String.mk (pyStripL g2)) := by
  refine ⟨by decide, by decide, by decide, ?_⟩
  intro lines i g2 hnp hnc hsp hrest hf1 hf2
  rw [scanFrom_succ, scanStep_spinner_unknown _ hnp hnc hsp hrest hf1 hf2]

/-- Witness for C5 on the unknown spinner word "Zorping". -/
theorem spinner_word_disposition_witness :
    scanFrom (splitLines ("✻ Zorping".data)) 1 = ("processing", "Zorping") :=
  (spinner_word_disposition.2.2.2 _ 0 ("Zorping".data) (by decide) (by decide)
    (by decide) (by decide) (by decide) (by decide)).trans (by decide)

/-! ### Claims about the interactive-prompt detector and the mode scanner -/

/-- C6: detect_interactive checks the five patterns in the fixed priority
order permission_confirm, highlighted_option, plan_approval, user_question,
selection_menu, returns the first match, and returns none when no pattern
matches; a text matching both the permission pattern and the caret pattern
yields permission_confirm. -/
theorem detector_priority_ordering :
    (∀ ls : List String,
      (matchAllowTool (joinLines ls) = true →
        detect_interactive ls =
          some ⟨.permission_confirm, extractChoices (joinLines ls) .permission_confirm⟩) ∧
      (matchAllowTool (joinLines ls) = false →
        matchCaretWord (joinLines ls) = true →
        detect_interactive ls =
          some ⟨.highlighted_option, extractChoices (joinLines ls) .highlighted_option⟩) ∧
      (matchAllowTool (joinLines ls) = false →
        matchCaretWord (joinLines ls) = false →
        matchProceed (joinLines ls) = true →
        detect_interactive ls =
          some ⟨.plan_approval, extractChoices (joinLines ls) .plan_approval⟩) ∧
      (matchAllowTool (joinLines ls) = false →
        matchCaretWord (joinLines ls) = false →
        matchProceed (joinLines ls) = false →
        matchUserQuestion (joinLines ls) = true →
        detect_interactive ls =
          some ⟨.user_question, extractChoices (joinLines ls) .user_question⟩) ∧
      (matchAllowTool (joinLines ls) = false →
        matchCaretWord (joinLines ls) = false →
        matchProceed (joinLines ls) = false →
        matchUserQuestion (joinLines ls) = false →
        2 ≤ selectionMenuCount (joinLines ls) →
        detect_interactive ls =
          some ⟨.selection_menu, extractChoices (joinLines ls) .selection_menu⟩) ∧
      (matchAllowTool (joinLines ls) = false →
        matchCaretWord (joinLines ls) = false →
        matchProceed (joinLines ls) = false →
        matchUserQuestion (joinLines ls) = false →
        ¬ 2 ≤ selectionMenuCount (joinLines ls) →
        detect_interactive ls = none)) ∧
    detect_interactive ["Allow tool X?", "❯ Yes"] =
      some ⟨.permission_confirm, ["Yes"]⟩ := by
  constructor
  · intro ls
    refine ⟨?_, ?_, ?_, ?_, ?_, ?_⟩ <;> intros <;> simp [detect_interactive, *]
  · decide

/-- Witness for C6: a permission request alone triggers the priority-1
branch with the default choices. -/
theorem detector_priority_ordering_witness :
    detect_interactive ["Allow tool foo?"] =
      some ⟨.permission_confirm, ["Yes", "No"]⟩ :=
  ((detector_priority_ordering.1 ["Allow tool foo?"]).1 (by decide)).trans
    (by decide)

/-- C8 counterexample: an accept-edits line above a plan line wins, so the
claim "any line with the paused glyph and plan forces the plan verdict" is
false: this screen has a paused-plan line but classifies as accept-edits. -/
theorem mode_plan_priority_counterexample :
    detect_claude_mode "⏵⏵ accept edits\n⏸ plan mode" = "accept-edits" := by
  decide

/-- C8 (amended): detect_claude_mode scans lines top-to-bottom and the
first matching line wins; on each line the paused-plan test is checked
before the accept-edits test; with no matching line the result is default;
a plan line that comes first does yield plan. -/
theorem mode_first_match_wins :
    (∀ (l : List Char) (ls : List (List Char)),
      (planCond l = true → modeScan (l :: ls) = "plan") ∧
      (planCond l = false → acceptCond l = true →
        modeScan (l :: ls) = "accept-edits") ∧
      (planCond l = false → acceptCond l = false →
        modeScan (l :: ls) = modeScan ls)) ∧
    modeScan [] = "default" ∧
    (∀ s : String, s ≠ "" →
      detect_claude_mode s = modeScan (splitLines s.data)) ∧
    detect_claude_mode "⏸ plan mode\n⏵⏵ accept edits" = "plan" := by
  refine ⟨?_, rfl, ?_, by decide⟩
  · intro l ls
    refine ⟨?_, ?_, ?_⟩ <;> intros <;> simp [modeScan, *]
  · intro s hs
    simp [detect_claude_mode, hs]

/-- Witness for the amended C8: a line passing the paused-plan test decides
the scan immediately. -/
theorem mode_first_match_wins_witness :
    modeScan ["⏸ plan mode".data] = "plan" :=
  (mode_first_match_wins.1 ("⏸ plan mode".data) []).1 (by decide)

/-! ### Totality defaults and the screen-edge inputting exclusion -/

lemma allspace_strip_nil {l : List Char}
    (h : ∀ c ∈ l, pyIsSpace c = true) : pyStripL l = [] := by
  have h1 : l.dropWhile pyIsSpace = [] := by
    induction l with
    | nil => rfl
    | cons a l ih =>
      rw [List.dropWhile_cons, h a (List.mem_cons_self a l)]
      exact ih fun c hc => h c (List.mem_cons_of_mem a hc)
  unfold pyStripL
  rw [h1]
  rfl

lemma splitLinesAux_allspace {P : Char → Prop} :
    ∀ (s acc : List Char), (∀ c ∈ s, P c) → (∀ c ∈ acc, P c) →
      ∀ line ∈ splitLinesAux s acc, ∀ c ∈ line, P c := by
  intro s
  induction s with
  | nil =>
    intro acc hs hacc line hline c hc
    simp [splitLinesAux] at hline
    subst hline
    exact hacc c (List.mem_reverse.mp hc)
  | cons a s ih =>
    intro acc hs hacc line hline c hc
    unfold splitLinesAux at hline
    by_cases ha : a = '\n'
    · rw [if_pos ha] at hline
      rcases List.mem_cons.mp hline with rfl | h2
      · exact hacc c (List.mem_reverse.mp hc)
      · exact ih [] (fun d hd => hs d (List.mem_cons_of_mem a hd))
          (by simp) line h2 c hc
    · rw [if_neg ha] at hline
      refine ih (a :: acc) (fun d hd => hs d (List.mem_cons_of_mem a hd))
        ?_ line hline c hc
      intro d hd
      rcases List.mem_cons.mp hd with rfl | h2
      · exact hs d (List.mem_cons_self d s)
      · exact hacc d h2

lemma strip_lineAt_nil {lines : List (List Char)} {i : Nat}
    (h : ∀ line ∈ lines, pyStripL line = []) :
    pyStripL (lineAt lines i) = [] := by
  unfold lineAt
  by_cases hi : i < lines.length
  · rw [List.getD_eq_getElem lines [] hi]
    exact h _ (List.getElem_mem hi)
  · rw [List.getD_eq_default lines [] (le_of_not_lt hi)]
    rfl

lemma scanStep_blank {lines : List (List Char)} {i : Nat}
    (fb : String × String)
    (h : pyStripL (lineAt lines i) = []) : scanStep lines i fb = fb := by
  simp [scanStep, h]

lemma scanFrom_blank_idle {lines : List (List Char)}
    (h : ∀ line ∈ lines, pyStripL line = []) :
    ∀ n, scanFrom lines n = ("idle", "") := by
  intro n
  induction n with
  | zero => rfl
  | succ i ih =>
    rw [scanFrom_succ, scanStep_blank _ (strip_lineAt_nil h), ih]

/-- C9: the classifiers are total functions with least-committal defaults:
empty and whitespace-only input classifies as `("idle", "")`, and when none
of the five patterns matches, detect_interactive returns none rather than
failing. -/
theorem total_least_committal :
    detect_claude_state "" = ("idle", "") ∧
    (∀ s : String, (∀ c ∈ s.data, pyIsSpace c = true) →
      detect_claude_state s = ("idle", "")) ∧
    (∀ ls : List String,
      matchAllowTool (joinLines ls) = false →
      matchCaretWord (joinLines ls) = false →
      matchProceed (joinLines ls) = false →
      matchUserQuestion (joinLines ls) = false →
      ¬ 2 ≤ selectionMenuCount (joinLines ls) →
      detect_interactive ls = none) := by
  refine ⟨rfl, ?_, ?_⟩
  · intro s hs
    by_cases hempty : s = ""
    · subst hempty; rfl
    · have hlines : ∀ line ∈ splitLines s.data, pyStripL line = [] := by
        intro line hline
        exact allspace_strip_nil
          (splitLinesAux_allspace s.data [] hs (by simp) line hline)
      unfold detect_claude_state
      rw [if_neg hempty]
      exact scanFrom_blank_idle hlines _
  · intro ls h1 h2 h3 h4 h5
    simp [detect_interactive, h1, h2, h3, h4, h5]

/-- Witness for C9: a whitespace-only screen and a pattern-free line. -/
theorem total_least_committal_witness :
    detect_claude_state "   \n \t \n" = ("idle", "") ∧
    detect_interactive ["plain output"] = none :=
  ⟨total_least_committal.2.1 "   \n \t \n" (by decide),
   total_least_committal.2.2 ["plain output"] (by decide) (by decide)
     (by decide) (by decide) (by decide)⟩

lemma inputtingCond_zero (lines : List (List Char)) :
    inputtingCond lines 0 = false := by
  have h : nearestNonEmpty lines ((0 : Nat) : Int) (-1) 3 = none := by
    unfold nearestNonEmpty nearestNonEmptyGo
    norm_num
  unfold inputtingCond
  rw [h]
  rfl

lemma inputtingCond_last {lines : List (List Char)} {i : Nat}
    (hlen : i + 1 ≤ lines.length) (hi : i = lines.length - 1) :
    inputtingCond lines i = false := by
  have h : nearestNonEmpty lines ((i : Nat) : Int) 1 3 = none := by
    unfold nearestNonEmpty nearestNonEmptyGo
    have hj : ((lines.length : Int) ≤ (i : Int) + 1 * ((1 : Nat) : Int)) := by
      push_cast
      omega
    simp [hj]
    intro _ h2
    exact absurd h2 (by omega)
  unfold inputtingCond
  rw [h]
  exact Bool.and_false _

/-- Shape of one scan step: either it defers to the fallback, or it decides
one of the four non-idle verdicts; an `inputting` decision is only possible
with the inputting condition true on a caret line with non-empty text. -/
lemma scanStep_shape (lines : List (List Char)) (i : Nat)
    (fb : String × String) :
    scanStep lines i fb = fb ∨
    (scanStep lines i fb).1 = "interactive" ∨
    (scanStep lines i fb).1 = "completed" ∨
    (scanStep lines i fb).1 = "processing" ∨
    ((scanStep lines i fb).1 = "inputting" ∧
      inputtingCond lines i = true ∧
      (pyStripL (lineAt lines i)).contains '❯' = true ∧
      pyStripL (afterFirstCaret (pyStripL (lineAt lines i))) ≠ []) := by
  by_cases hb : pyStripL (lineAt lines i) = []
  · exact Or.inl (scanStep_blank _ hb)
  · cases hp : findPrompt (pyStripL (lineAt lines i)) with
    | some p =>
      right; left
      simp [scanStep, hb, hp]
    | none =>
      by_cases hc : (pyStripL (lineAt lines i)).contains '❯' = true
      · by_cases hafter : pyStripL (afterFirstCaret (pyStripL (lineAt lines i))) = []
        · exact Or.inl (scanStep_caret_empty _ hp hc hafter)
        · by_cases hin : inputtingCond lines i = true
          · right; right; right; right
            rw [scanStep_caret_inputting _ hp hc hafter hin]
            exact ⟨rfl, hin, hc, hafter⟩
          · have hin2 : inputtingCond lines i = false := by
              rwa [Bool.not_eq_true] at hin
            by_cases hq : hasQuestionAbove lines i = true
            · right; left
              rw [scanStep_caret_question _ hp hc hafter hin2 hq]
            · have hq2 : hasQuestionAbove lines i = false := by
                rwa [Bool.not_eq_true] at hq
              exact Or.inl (scanStep_caret_skip _ hp hc hin2 hq2)
      · have hc2 : '❯' ∉ pyStripL (lineAt lines i) := by
          intro hm
          exact hc (contains_iff_mem.mpr hm)
        cases hsp : spinnerMatch (lineAt lines i) with
        | none => exact Or.inl (by simp [scanStep, hb, hp, hc2, hsp])
        | some g2 =>
          by_cases hrest : pyStripL g2 = []
          · exact Or.inl (by simp [scanStep, hb, hp, hc2, hsp, hrest])
          · by_cases hf1 : memWords COMPLETED_WORDS (firstToken (pyStripL g2)) = true
            · right; right; left
              simp [scanStep, hb, hp, hc2, hsp, hrest, hf1]
            · right; right; right; left
              have hf1b : memWords COMPLETED_WORDS (firstToken (pyStripL g2)) = false := by
                rwa [Bool.not_eq_true] at hf1
              by_cases hf2 : memWords PROCESSING_WORDS (firstToken (pyStripL g2)) = true
              · simp [scanStep, hb, hp, hc2, hsp, hrest, hf1b, hf2]
              · have hf2b : memWords PROCESSING_WORDS (firstToken (pyStripL g2)) = false := by
                  rwa [Bool.not_eq_true] at hf2
                rw [scanStep_spinner_unknown _ hp
                  (by rw [Bool.eq_false_iff]; exact fun hx => hc hx) hsp hrest hf1b hf2b]

/-- C10: when every caret line with non-empty trailing text sits at the
bottom or the top edge of the screen, the scan never returns `inputting`:
the nearest-non-blank lookup finds nothing past the screen edge, so the
inputting condition fails there. -/
theorem edge_caret_not_inputting :
    (∀ (lines : List (List Char)) (n : Nat), n ≤ lines.length →
      (∀ j, j < lines.length →
        ((pyStripL (lineAt lines j)).contains '❯' = true ∧
          pyStripL (afterFirstCaret (pyStripL (lineAt lines j))) ≠ []) →
        (j = lines.length - 1 ∨ j = 0)) →
      (scanFrom lines n).1 ≠ "inputting") ∧
    ∀ s : String,
      (∀ j, j < (splitLines s.data).length →
        ((pyStripL (lineAt (splitLines s.data) j)).contains '❯' = true ∧
          pyStripL (afterFirstCaret (pyStripL (lineAt (splitLines s.data) j))) ≠ []) →
        (j = (splitLines s.data).length - 1 ∨ j = 0)) →
      (detect_claude_state s).1 ≠ "inputting" := by
  have main : ∀ (lines : List (List Char)) (n : Nat), n ≤ lines.length →
      (∀ j, j < lines.length →
        ((pyStripL (lineAt lines j)).contains '❯' = true ∧
          pyStripL (afterFirstCaret (pyStripL (lineAt lines j))) ≠ []) →
        (j = lines.length - 1 ∨ j = 0)) →
      (scanFrom lines n).1 ≠ "inputting" := by
    intro lines n
    induction n with
    | zero =>
      intro _ _
      rw [show scanFrom lines 0 = ("idle", "") from rfl]
      decide
    | succ i ih =>
      intro hn H
      rw [scanFrom_succ]
      rcases scanStep_shape lines i (scanFrom lines i) with
        heq | h1 | h1 | h1 | ⟨h1, hin, hc, hafter⟩
      · rw [heq]
        exact ih (by omega) H
      · rw [h1]; decide
      · rw [h1]; decide
      · rw [h1]; decide
      · exfalso
        rcases H i (by omega) ⟨hc, hafter⟩ with hlast | hzero
        · rw [inputtingCond_last hn hlast] at hin
          exact absurd hin (by simp)
        · subst hzero
          rw [inputtingCond_zero lines] at hin
          exact absurd hin (by simp)
  refine ⟨main, ?_⟩
  intro s H
  by_cases hempty : s = ""
  · subst hempty; decide
  · unfold detect_claude_state
    rw [if_neg hempty]
    exact main _ _ le_rfl H

/-- Witness for C10: a three-line screen whose only caret-with-text line is
the bottom line does not classify as inputting. -/
theorem edge_caret_not_inputting_witness :
    (detect_claude_state "a\nb\n❯ foo").1 ≠ "inputting" :=
  edge_caret_not_inputting.2 "a\nb\n❯ foo" (by decide)

/-! ### Choice-shape lemmas for the detector (claim on choice invariants) -/

lemma noLead_of_prefix {p : Char → Bool} {l l₂ : List Char}
    (h : List.dropWhile p l = l) (hp : l₂ <+: l) :
    List.dropWhile p l₂ = l₂ := by
  cases l₂ with
  | nil => rfl
  | cons c t =>
    have hcl : p c = false := by
      obtain ⟨r, hr⟩ := hp
      by_contra hpc
      rw [Bool.not_eq_false] at hpc
      have h2 : List.dropWhile p l = List.dropWhile p (t ++ r) := by
        rw [← hr, List.cons_append, List.dropWhile_cons, if_pos hpc]
      have h3 : l.length ≤ (t ++ r).length := by
        conv_lhs => rw [← h, h2]
        exact (List.dropWhile_suffix p).sublist.length_le
      rw [← hr] at h3
      simp at h3
    simp [List.dropWhile_cons, hcl]

/-- Python `str.strip()` is idempotent. -/
lemma pyStripL_idem (l : List Char) : pyStripL (pyStripL l) = pyStripL l := by
  have ha : List.dropWhile pyIsSpace (List.dropWhile pyIsSpace l) =
      List.dropWhile pyIsSpace l := List.dropWhile_idempotent _ _
  have hsuf : List.dropWhile pyIsSpace (List.dropWhile pyIsSpace l).reverse <:+
      (List.dropWhile pyIsSpace l).reverse := List.dropWhile_suffix _
  have hpre : (List.dropWhile pyIsSpace (List.dropWhile pyIsSpace l).reverse).reverse <+:
      List.dropWhile pyIsSpace l := by
    have h2 := List.reverse_prefix.mpr hsuf
    rwa [List.reverse_reverse] at h2
  have h1 : List.dropWhile pyIsSpace (pyStripL l) = pyStripL l :=
    noLead_of_prefix ha hpre
  have h2 : List.dropWhile pyIsSpace (pyStripL l).reverse = (pyStripL l).reverse := by
    show List.dropWhile pyIsSpace
        (List.dropWhile pyIsSpace (List.dropWhile pyIsSpace l).reverse).reverse.reverse =
      (List.dropWhile pyIsSpace (List.dropWhile pyIsSpace l).reverse).reverse.reverse
    rw [List.reverse_reverse]
    exact List.dropWhile_idempotent _ _
  show ((List.dropWhile pyIsSpace (pyStripL l)).reverse.dropWhile pyIsSpace).reverse =
    pyStripL l
  rw [h1, h2, List.reverse_reverse]

lemma extractPermission_spec (t : List Char) :
    extractPermission t ≠ [] ∧
    ∀ c ∈ extractPermission t, c = "Yes" ∨ c = "No" := by
  unfold extractPermission
  by_cases h1 : hasWordCI "yes" t = true <;>
    by_cases h2 : hasWordCI "no" t = true <;>
      simp [h1, h2]

lemma extractQuestion_spec (t : List Char) :
    extractQuestion t ≠ [] ∧
    ∀ c ∈ extractQuestion t, c = "Yes" ∨ c = "No" := by
  unfold extractQuestion
  by_cases h1 : hasWordCI "yes" t = true <;>
    by_cases h2 : hasWordCI "no" t = true <;>
      simp [h1, h2]

lemma extractPlan_spec (t : List Char) :
    extractPlan t ≠ [] ∧
    ∀ c ∈ extractPlan t,
      c = "Yes" ∨ c = "No" ∨ c = "Proceed" ∨ c = "Cancel" := by
  unfold extractPlan
  by_cases h1 : hasWordCI "yes" t = true <;>
    by_cases h2 : hasWordCI "no" t = true <;>
      by_cases h3 : hasWordCI "proceed" t = true <;>
        by_cases h4 : hasWordCI "cancel" t = true <;>
          simp [h1, h2, h3, h4]

lemma highlightedChoice_shape {line : List Char} {c : String}
    (h : highlightedChoice line = some c) :
    ∃ x, c = String.mk (pyStripL x) := by
  unfold highlightedChoice at h
  split at h
  · split at h
    · exact ⟨_, (Option.some.inj h).symm⟩
    · cases h
  · split at h
    · split at h
      · exact ⟨_, (Option.some.inj h).symm⟩
      · cases h
    · cases h

lemma selectionChoice_shape {line : List Char} {c : String}
    (h : selectionChoice line = some c) :
    ∃ x, c = String.mk (pyStripL x) := by
  unfold selectionChoice at h
  split at h
  · exact ⟨_, (Option.some.inj h).symm⟩
  · split at h
    · exact ⟨_, (Option.some.inj h).symm⟩
    · cases h

lemma stripped_string_trim (x : List Char) :
    String.mk (pyStripL (String.mk (pyStripL x)).data) = String.mk (pyStripL x) :=
  congrArg String.mk (pyStripL_idem x)

/-- C7 counterexample: two inputs on which detect_interactive returns a
match violating the claim: a selection menu whose items carry no `.`/`)`
yields an empty choices list, and a caret line with only trailing
whitespace yields an empty-string choice. -/
theorem choice_nonempty_counterexample :
    detect_interactive ["1 a", "2 b"] = some ⟨.selection_menu, []⟩ ∧
    detect_interactive ["❯ Yes", "❯  "] =
      some ⟨.highlighted_option, ["Yes", ""]⟩ := by
  constructor <;> decide

/-- C7 (amended): whenever detect_interactive returns a match, every choice
equals its own trim; for permission_confirm, plan_approval and
user_question the choices list is non-empty and every choice is a non-empty
literal; for highlighted_option and selection_menu the list may be empty
and a choice may be the empty string. -/
theorem choices_trimmed_and_core_nonempty :
    ∀ (ls : List String) (m : InteractionMatch),
      detect_interactive ls = some m →
      (∀ c ∈ m.choices, String.mk (pyStripL c.data) = c) ∧
      ((m.interaction_type = .permission_confirm ∨
        m.interaction_type = .plan_approval ∨
        m.interaction_type = .user_question) →
        m.choices ≠ [] ∧ ∀ c ∈ m.choices, c ≠ "") := by
  intro ls m h
  simp only [detect_interactive] at h
  split_ifs at h with h1 h2 h3 h4 h5
  · -- permission_confirm
    rcases Option.some.inj h with rfl
    refine ⟨?_, fun _ => ⟨(extractPermission_spec _).1, ?_⟩⟩
    · intro c hc
      rcases (extractPermission_spec _).2 c hc with rfl | rfl <;> decide
    · intro c hc
      rcases (extractPermission_spec _).2 c hc with rfl | rfl <;> decide
  · -- highlighted_option
    rcases Option.some.inj h with rfl
    constructor
    · intro c hc
      obtain ⟨line, _, hline⟩ := List.mem_filterMap.mp hc
      obtain ⟨x, rfl⟩ := highlightedChoice_shape hline
      exact stripped_string_trim x
    · rintro (hty | hty | hty) <;> simp at hty
  · -- plan_approval
    rcases Option.some.inj h with rfl
    refine ⟨?_, fun _ => ⟨(extractPlan_spec _).1, ?_⟩⟩
    · intro c hc
      rcases (extractPlan_spec _).2 c hc with rfl | rfl | rfl | rfl <;> decide
    · intro c hc
      rcases (extractPlan_spec _).2 c hc with rfl | rfl | rfl | rfl <;> decide
  · -- user_question
    rcases Option.some.inj h with rfl
    refine ⟨?_, fun _ => ⟨(extractQuestion_spec _).1, ?_⟩⟩
    · intro c hc
      rcases (extractQuestion_spec _).2 c hc with rfl | rfl <;> decide
    · intro c hc
      rcases (extractQuestion_spec _).2 c hc with rfl | rfl <;> decide
  · -- selection_menu
    rcases Option.some.inj h with rfl
    constructor
    · intro c hc
      obtain ⟨line, _, hline⟩ := List.mem_filterMap.mp hc
      obtain ⟨x, rfl⟩ := selectionChoice_shape hline
      exact stripped_string_trim x
    · rintro (hty | hty | hty) <;> simp at hty

/-- Witness for the amended C7: on a concrete permission-confirm match the
first choice is trimmed and the choices list is non-empty. -/
theorem choices_trimmed_and_core_nonempty_witness :
    String.mk (pyStripL ("Yes".data)) = "Yes" ∧
    (InteractionMatch.mk .permission_confirm ["Yes", "No"]).choices ≠ [] := by
  have h := choices_trimmed_and_core_nonempty ["Allow tool foo?"]
    ⟨.permission_confirm, ["Yes", "No"]⟩ (by decide)
  exact ⟨h.1 "Yes" (by decide), (h.2 (Or.inl rfl)).1⟩

end Terminalcp
